import Mathlib

/-!
Shallow embedding of the `itsmine` resource-consumption simulator
(src/src/main.rs) and verification of its specification claims.

Strings are modelled as `List Char` (all characters involved are ASCII).
Machine integers (`u64`, `u32`, `usize`) are modelled as `Nat` with explicit
reduction modulo `2 ^ 64` / `2 ^ 32` where the Rust code can overflow
(release-mode wrapping semantics). Fallible Rust functions returning
`Result` are modelled with an outcome type that distinguishes a returned
`Err` value (recoverable) from a `panic!` / `.expect` abort (fatal).
-/

namespace Itsmine

/-- Outcome of a Rust computation: a returned `Ok` value, a returned `Err`
failure value (recoverable, carried to the caller), or a process abort via
`panic!` / `.expect` / failed assertion (fatal), carrying the panic message. -/
inductive RunResult (α : Type) where
  | ok : α → RunResult α
  | err : String → RunResult α
  | panicked : String → RunResult α
deriving DecidableEq

/-- The `Resource` subcommand enum from main.rs: a memory size string or a
thread count. -/
inductive Resource where
  | Memory (arg : List Char)
  | Thread (num : Nat)
deriving DecidableEq

/-- The `Memory` strategy struct: parsed numeric size and unit multiplier
(both `u64` in the source). -/
structure Memory where
  size : Nat
  multiplier : Nat
deriving DecidableEq

/-- The `Thread` strategy tuple struct: worker count (`u32` in the source). -/
structure Thread where
  num : Nat
deriving DecidableEq

/-- The modulus `2 ^ 64` of `u64` / 64-bit `usize` arithmetic. -/
def usizeMod : Nat := 2 ^ 64

/-- The largest `u64` value, `u64::MAX`. -/
def u64Max : Nat := 2 ^ 64 - 1

/-- The modulus `2 ^ 32` of `u32` arithmetic. -/
def u32Mod : Nat := 2 ^ 32

/-- Rust `str::ends_with(char)`: the string's last character equals `c`. -/
def endsWithChar (s : List Char) (c : Char) : Bool :=
  s.getLast? == some c

/-- Rust `str::strip_suffix(char)`: drop the last character when it is `c`. -/
def stripSuffixChar (s : List Char) (c : Char) : Option (List Char) :=
  if s.getLast? == some c then some s.dropLast else none

/-- The suffix-inspection cascade of `Memory::from_resource` (main.rs:42-54):
try `B`, `K`, `M`, `G` in order, yielding the multiplier and the matched
suffix character, or nothing when no suffix matches. -/
def findSuffix (s : List Char) : Option (Nat × Char) :=
  if endsWithChar s 'B' then some (1, 'B')
  else if endsWithChar s 'K' then some (1024, 'K')
  else if endsWithChar s 'M' then some (1024 * 1024, 'M')
  else if endsWithChar s 'G' then some (1024 * 1024 * 1024, 'G')
  else none

/-- Digit-accumulation loop of Rust `u64::from_str` (`from_str_radix`, radix
10): left to right, each character must be an ASCII digit (else
`InvalidDigit`), and the running value must stay within `u64` (else
`PosOverflow`). -/
def parseDigits : List Char → Nat → Except String Nat
  | [], acc => .ok acc
  | c :: rest, acc =>
    if c.isDigit then
      if acc * 10 + (c.toNat - '0'.toNat) ≤ u64Max then
        parseDigits rest (acc * 10 + (c.toNat - '0'.toNat))
      else .error "number too large to fit in target type"
    else .error "invalid digit found in string"

/-- Rust `str::parse::<u64>()`: empty input is `Empty`; a lone sign character
is `InvalidDigit`; a leading `+` is accepted and skipped (`-` is not a valid
start for an unsigned type and falls through to digit parsing, failing as
`InvalidDigit`); then the digit loop runs. Error values are the
`ParseIntError` display strings. -/
def parseU64 (s : List Char) : Except String Nat :=
  match s with
  | [] => .error "cannot parse integer from empty string"
  | c :: rest =>
    if (c == '+' || c == '-') && rest.isEmpty then
      .error "invalid digit found in string"
    else if c == '+' then parseDigits rest 0
    else parseDigits s 0

/-- Embeds `Memory::from_resource` (main.rs:27-68): a `Thread` specification is
rejected with a returned `Err`; otherwise the suffix cascade runs (returned
`Err` on no valid suffix), the suffix is stripped, and the remaining part is
parsed as `u64`. A parse failure is wrapped by `anyhow!` and then hit by
`.expect("Failed to parse memory size")`, so it ABORTS (panic), it is not
returned to the caller. -/
def Memory.from_resource (res : Resource) : RunResult Memory :=
  match res with
  | .Thread _ => .err "Expected Memory resource, got Thread resource"
  | .Memory size_str =>
    match findSuffix size_str with
    | none => .err "Invalid memory size suffix. Use B, K, M, or G."
    | some (multiplier, suffix) =>
      let parsed : Except String Nat :=
        match stripSuffixChar size_str suffix with
        | none => .error ("Invalid memory size " ++ size_str.asString)
        | some s =>
          match parseU64 s with
          | .ok v => .ok v
          | .error e =>
            .error ("Failed to parse memory size '" ++ s.asString ++ "': " ++ e)
      match parsed with
      | .ok size => .ok ⟨size, multiplier⟩
      | .error e => .panicked ("Failed to parse memory size: " ++ e)

/-- An allocator size/alignment descriptor (`std::alloc::Layout`). -/
structure Layout where
  size : Nat
  align : Nat
deriving DecidableEq

/-- Decidable power-of-two test, via `n &&& (n - 1) = 0`. -/
def isPowerOfTwoB (n : Nat) : Bool :=
  n != 0 && (n &&& (n - 1)) == 0

/-- Embeds `std::alloc::Layout::from_size_align`: the alignment must be a power of
two and the size, rounded up to the alignment, must not exceed
`isize::MAX = 2 ^ 63 - 1`. -/
def layoutFromSizeAlign (size align : Nat) : Option Layout :=
  if isPowerOfTwoB align && size ≤ (2 ^ 63 - 1) - (align - 1) then
    some ⟨size, align⟩
  else none

/-- Observable allocator events of `Memory::execute`: one raw allocation, a
byte write at an offset, one deallocation (each carrying its descriptor). -/
inductive MemEvent where
  | alloc (l : Layout)
  | write (off : Nat) (val : Nat)
  | dealloc (l : Layout)
deriving DecidableEq

/-- Embeds `Memory::execute` (main.rs:70-92). `total = size * multiplier` in
wrapping `u64` arithmetic; `assert!(total > 0)` aborts on zero BEFORE any
allocation; the layout is built with alignment 8 and unwrapped; the raw
allocation either fails (null pointer, modelled by the `allocOk` flag,
fatal panic with the single `alloc` event already issued) or succeeds,
after which byte value 0 is written at offsets `0, 1, ..., total - 1` in
order and the allocation is released with the same layout. The result is
the list of allocator events together with `none` (normal return) or
`some msg` (panic with message `msg`). -/
def Memory.execute (m : Memory) (allocOk : Bool) :
    List MemEvent × Option String :=
  let total := m.size * m.multiplier % usizeMod
  if total > 0 then
    match layoutFromSizeAlign total 8 with
    | none => ([], some "called Result::unwrap on an Err value: LayoutError")
    | some layout =>
      if allocOk then
        (MemEvent.alloc layout ::
          ((List.range total).map fun i => MemEvent.write i 0) ++
            [MemEvent.dealloc layout], none)
      else ([MemEvent.alloc layout], some "Memory allocation failed")
  else ([], some "Memory size must be greater than 0")

/-- Embeds `fibonacci` (main.rs:146-151): naive double recursion on `u32`; the
addition wraps modulo `2 ^ 32` (release semantics). -/
def fibonacci : Nat → Nat
  | 0 => 0
  | 1 => 1
  | n + 2 => (fibonacci (n + 1) + fibonacci n) % u32Mod

/-- Embeds `Thread::from_resource` (main.rs:100-107): a `Memory` specification is
rejected with a returned `Err`; a `Thread` one succeeds. -/
def Thread.from_resource (res : Resource) : RunResult Thread :=
  match res with
  | .Thread num => .ok ⟨num⟩
  | .Memory _ => .err "Expected Thread resource, got Memory resource"

/-- The results the parent collects in `Thread::execute` (main.rs:126-133):
each of the `n` workers deterministically computes `fibonacci 30` and sends
exactly that value once; the parent joins and receives `n` times, so the
collected sequence is `n` copies of `fibonacci 30` regardless of the
delivery order of the rendezvous channel. -/
def collectResults (n : Nat) : List Nat :=
  List.replicate n (fibonacci 30)

/-- The comparison loop of `Thread::execute` (main.rs:137-141): every
collected result must equal the first one. -/
def consistencyCheck (results : List Nat) (first : Nat) : Bool :=
  results.all (fun x => x == first)

/-- Value of a digit string under the standard left-to-right accumulation
(`acc * 10 + digit`), as performed by the `u64` parser. -/
def digitsVal (ds : List Char) : Nat :=
  ds.foldl (fun a c => a * 10 + (c.toNat - '0'.toNat)) 0

/-- Embeds `Thread::execute` (main.rs:109-143): collect the results, then read
`results[0]` — which PANICS with an index-out-of-bounds when the result set
is empty — and run the comparison loop, panicking on any mismatch. -/
def Thread.execute (t : Thread) : RunResult (List Nat) :=
  let results := collectResults t.num
  match results.head? with
  | none => .panicked "index out of bounds: the len is 0 but the index is 0"
  | some first =>
    if consistencyCheck results first then .ok results
    else .panicked "Inconsistent results from threads"


/-! ## Helper lemmas -/

theorem fibonacci_step (n : Nat) :
    fibonacci (n + 2) = (fibonacci (n + 1) + fibonacci n) % u32Mod := rfl

theorem fibonacci_eq_fib : ∀ n, fibonacci n = Nat.fib n % u32Mod := by
  intro n
  induction n using Nat.twoStepInduction with
  | zero => rfl
  | one => rfl
  | more n ih1 ih2 =>
    rw [fibonacci_step, ih1, ih2, Nat.fib_add_two]
    conv_rhs => rw [Nat.add_comm, Nat.add_mod]

theorem fib30 : fibonacci 30 = 832040 := by
  rw [fibonacci_eq_fib]
  decide

theorem le_foldl_digits (ds : List Char) : ∀ acc : Nat,
    acc ≤ ds.foldl (fun a c => a * 10 + (c.toNat - '0'.toNat)) acc := by
  induction ds with
  | nil => intro acc; simp
  | cons c rest ih =>
    intro acc
    rw [List.foldl_cons]
    exact le_trans (by omega) (ih _)

theorem parseDigits_ok (ds : List Char) : ∀ acc : Nat,
    (∀ c ∈ ds, c.isDigit) →
    ds.foldl (fun a c => a * 10 + (c.toNat - '0'.toNat)) acc ≤ u64Max →
    parseDigits ds acc =
      .ok (ds.foldl (fun a c => a * 10 + (c.toNat - '0'.toNat)) acc) := by
  induction ds with
  | nil => intro acc _ _; rfl
  | cons c rest ih =>
    intro acc hdig hle
    rw [List.foldl_cons] at hle ⊢
    have hc : c.isDigit := hdig c (by simp)
    have hbound : acc * 10 + (c.toNat - '0'.toNat) ≤ u64Max :=
      le_trans (le_foldl_digits rest _) hle
    simp only [parseDigits, hc, if_true, hbound, if_pos]
    exact ih _ (fun x hx => hdig x (List.mem_cons_of_mem _ hx)) hle

theorem parseU64_ok (ds : List Char) (hne : ds ≠ [])
    (hdig : ∀ c ∈ ds, c.isDigit) (hlt : digitsVal ds < 2 ^ 64) :
    parseU64 ds = .ok (digitsVal ds) := by
  match ds, hne with
  | c :: rest, _ =>
    have hc : c.isDigit := hdig c (by simp)
    have hcp : (c == '+') = false := by
      rw [beq_eq_false_iff_ne]
      intro h
      rw [h] at hc
      exact absurd hc (by decide)
    have hcm : (c == '-') = false := by
      rw [beq_eq_false_iff_ne]
      intro h
      rw [h] at hc
      exact absurd hc (by decide)
    have hle : digitsVal (c :: rest) ≤ u64Max := by
      unfold u64Max
      omega
    simp only [parseU64, hcp, hcm, Bool.or_self, Bool.false_and, Bool.false_or,
      Bool.or_false, Bool.false_eq_true, if_false]
    exact parseDigits_ok (c :: rest) 0 hdig hle

theorem endsWithChar_concat (ds : List Char) (c x : Char) :
    endsWithChar (ds ++ [c]) x = (c == x) := by
  simp [endsWithChar, List.getLast?_concat]

theorem stripSuffixChar_concat (ds : List Char) (c : Char) :
    stripSuffixChar (ds ++ [c]) c = some ds := by
  simp [stripSuffixChar, List.getLast?_concat, List.dropLast_concat]

theorem consistencyCheck_replicate (n v : Nat) :
    consistencyCheck (List.replicate n v) v = true := by
  simp only [consistencyCheck, List.all_eq_true]
  intro x hx
  simpa using List.eq_of_mem_replicate hx

theorem thread_execute_pos (n : Nat) (h : 1 ≤ n) :
    Thread.execute ⟨n⟩ = .ok (collectResults n) := by
  cases n with
  | zero => omega
  | succ m =>
    unfold Thread.execute
    have hrep : collectResults (m + 1) =
        fibonacci 30 :: List.replicate m (fibonacci 30) := by
      simp [collectResults, List.replicate_succ]
    rw [hrep]
    simp only [List.head?_cons]
    rw [show fibonacci 30 :: List.replicate m (fibonacci 30) =
      List.replicate (m + 1) (fibonacci 30) from (List.replicate_succ _ _).symm,
      consistencyCheck_replicate]
    rw [if_pos rfl]

theorem expect_msg_concat :
    ("Failed to parse memory size: " ++ "Failed to parse memory size '" : String) =
      "Failed to parse memory size: Failed to parse memory size '" := rfl

/-! ## Claim theorems -/

/-- Claim C1, counterexample: decoding the size string "abcK" (valid suffix,
non-digit numeric part) does not return a recoverable error value — it
aborts with a panic. This refutes the claim that such inputs fail with a
recoverable `InvalidNumericValue` error returned to the caller. -/
theorem c1_counterexample :
    Memory.from_resource (.Memory ['a', 'b', 'c', 'K']) =
      .panicked "Failed to parse memory size: Failed to parse memory size 'abc': invalid digit found in string" := by
  decide

/-- Claim C1 (amended): for every size string formed of a numeric part
followed by a valid suffix in B/K/M/G, where the numeric part fails `u64`
parsing (empty, lone sign, non-digit character, or overflow), decoding
aborts the process with a panic whose message carries the offending
substring, rather than returning a recoverable error value. -/
theorem c1_amended_abort (pre : List Char) (suffix : Char) (e : String)
    (hs : suffix ∈ (['B', 'K', 'M', 'G'] : List Char))
    (hp : parseU64 pre = .error e) :
    Memory.from_resource (.Memory (pre ++ [suffix])) =
      .panicked ("Failed to parse memory size: Failed to parse memory size '" ++
        pre.asString ++ "': " ++ e) := by
  fin_cases hs <;>
    (simp [Memory.from_resource, findSuffix, endsWithChar_concat,
      stripSuffixChar_concat, hp, String.append_assoc];
     rw [← String.append_assoc, expect_msg_concat])

/-- Witness for C1 (amended): the size string "K" has an empty numeric part
and decoding it panics with the empty-string parse error. -/
theorem c1_amended_abort_witness :
    Memory.from_resource (.Memory (([] : List Char) ++ ['K'])) =
      .panicked ("Failed to parse memory size: Failed to parse memory size '" ++
        List.asString [] ++ "': " ++ "cannot parse integer from empty string") :=
  c1_amended_abort [] 'K' "cannot parse integer from empty string"
    (by decide) rfl

/-- Claim C2, counterexample: executing the Thread strategy with count 0
does not complete normally with an empty result set. -/
theorem c2_counterexample :
    Thread.execute ⟨0⟩ ≠ RunResult.ok ([] : List Nat) := by
  simp [Thread.execute, collectResults]

/-- Claim C2 (amended): with count 0 the collected result set is empty and
execution panics with an index-out-of-bounds error when reading the first
result, instead of returning. -/
theorem c2_zero_count_aborts :
    collectResults 0 = [] ∧
    Thread.execute ⟨0⟩ =
      .panicked "index out of bounds: the len is 0 but the index is 0" := by
  constructor
  · rfl
  · simp [Thread.execute, collectResults]

/-- Claim C3: every size string of one or more ASCII digits (with value
representable in `u64`) followed by one suffix in B/K/M/G decodes to the
pair of the numeric value and the suffix's multiplier; in particular
"100B" gives (100, 1), "2G" gives (2, 1073741824), "0K" gives (0, 1024). -/
theorem c3_decode_success :
    (∀ (ds : List Char) (suffix : Char) (mult : Nat),
      ds ≠ [] → (∀ c ∈ ds, c.isDigit) → digitsVal ds < 2 ^ 64 →
      (suffix, mult) ∈ [('B', 1), ('K', 1024), ('M', 1048576), ('G', 1073741824)] →
      Memory.from_resource (.Memory (ds ++ [suffix])) = .ok ⟨digitsVal ds, mult⟩) ∧
    Memory.from_resource (.Memory ['1', '0', '0', 'B']) = .ok ⟨100, 1⟩ ∧
    Memory.from_resource (.Memory ['2', 'G']) = .ok ⟨2, 1073741824⟩ ∧
    Memory.from_resource (.Memory ['0', 'K']) = .ok ⟨0, 1024⟩ := by
  refine ⟨?_, by decide, by decide, by decide⟩
  intro ds suffix mult hne hdig hlt hmem
  have hp := parseU64_ok ds hne hdig hlt
  fin_cases hmem <;>
    simp [Memory.from_resource, findSuffix, endsWithChar_concat,
      stripSuffixChar_concat, hp]

/-- Witness for C3: "7K" decodes to (7, 1024). -/
theorem c3_decode_success_witness :
    Memory.from_resource (.Memory (['7'] ++ ['K'])) = .ok ⟨digitsVal ['7'], 1024⟩ :=
  c3_decode_success.1 ['7'] 'K' 1024 (by decide) (by decide) (by decide) (by decide)

/-- Claim C4: for every count `n ≥ 1` the Thread strategy completes
normally, collecting exactly `n` results, each equal to
`fibonacci 30 = 832040`. -/
theorem c4_thread_results (n : Nat) (h : 1 ≤ n) :
    Thread.execute ⟨n⟩ = .ok (collectResults n) ∧
    (collectResults n).length = n ∧
    ∀ x ∈ collectResults n, x = 832040 := by
  refine ⟨thread_execute_pos n h, by simp [collectResults], ?_⟩
  intro x hx
  have hx' : x = fibonacci 30 :=
    List.eq_of_mem_replicate (by simpa [collectResults] using hx)
  rw [hx', fib30]

/-- Witness for C4 at count 3. -/
theorem c4_thread_results_witness :
    Thread.execute ⟨3⟩ = .ok (collectResults 3) ∧
    (collectResults 3).length = 3 ∧
    ∀ x ∈ collectResults 3, x = 832040 :=
  c4_thread_results 3 (by omega)

/-- Claim C5: constructing the Memory strategy from a Thread specification,
and the Thread strategy from a Memory specification, always fails with the
kind-mismatch error, returned as a recoverable `Err` value (not a panic). -/
theorem c5_wrong_resource_kind (num : Nat) (arg : List Char) :
    Memory.from_resource (.Thread num) =
      .err "Expected Memory resource, got Thread resource" ∧
    Thread.from_resource (.Memory arg) =
      .err "Expected Thread resource, got Memory resource" :=
  ⟨rfl, rfl⟩

/-- Claim C6: with `size = 0` and any multiplier, construction succeeds (as
the "0K" instance shows), `total = 0 * multiplier = 0`, and execution aborts
fatally on the zero-size assertion with an EMPTY allocator-event trace, i.e.
before performing any allocation. -/
theorem c6_zero_size_fatal (mult : Nat) (allocOk : Bool) :
    Memory.from_resource (.Memory ['0', 'K']) = .ok ⟨0, 1024⟩ ∧
    0 * mult % usizeMod = 0 ∧
    (Memory.mk 0 mult).execute allocOk =
      ([], some "Memory size must be greater than 0") := by
  refine ⟨by decide, by simp, ?_⟩
  simp [Memory.execute]

/-- Claim C7: every string whose last character is not one of B/K/M/G
(including the empty string) fails decoding with the invalid-suffix error,
returned as a recoverable `Err` value. -/
theorem c7_invalid_suffix (cs : List Char)
    (h : ∀ c ∈ (['B', 'K', 'M', 'G'] : List Char), cs.getLast? ≠ some c) :
    Memory.from_resource (.Memory cs) =
      .err "Invalid memory size suffix. Use B, K, M, or G." := by
  have hx : ∀ x ∈ (['B', 'K', 'M', 'G'] : List Char), endsWithChar cs x = false := by
    intro x hxmem
    unfold endsWithChar
    rw [beq_eq_false_iff_ne]
    exact h x hxmem
  simp [Memory.from_resource, findSuffix, hx 'B' (by simp), hx 'K' (by simp),
    hx 'M' (by simp), hx 'G' (by simp)]

/-- Witness for C7: "10" (no suffix) is rejected with the invalid-suffix
error. -/
theorem c7_invalid_suffix_witness :
    Memory.from_resource (.Memory ['1', '0']) =
      .err "Invalid memory size suffix. Use B, K, M, or G." :=
  c7_invalid_suffix ['1', '0'] (by decide)

/-- Claim C8: for every count `n ≥ 1`, every collected result equals the
first one, the comparison loop passes, and the fatal result-inconsistency
panic is unreachable. -/
theorem c8_consistency_unreachable (n : Nat) (h : 1 ≤ n) :
    (∃ first, (collectResults n).head? = some first ∧
      (∀ x ∈ collectResults n, x = first) ∧
      consistencyCheck (collectResults n) first = true) ∧
    Thread.execute ⟨n⟩ ≠ .panicked "Inconsistent results from threads" := by
  constructor
  · refine ⟨fibonacci 30, ?_, ?_, ?_⟩
    · cases n with
      | zero => omega
      | succ m => simp [collectResults, List.replicate_succ]
    · intro x hx
      exact List.eq_of_mem_replicate (by simpa [collectResults] using hx)
    · simpa [collectResults] using consistencyCheck_replicate n (fibonacci 30)
  · rw [thread_execute_pos n h]
    simp

/-- Witness for C8 at count 2. -/
theorem c8_consistency_unreachable_witness :
    (∃ first, (collectResults 2).head? = some first ∧
      (∀ x ∈ collectResults 2, x = first) ∧
      consistencyCheck (collectResults 2) first = true) ∧
    Thread.execute ⟨2⟩ ≠ .panicked "Inconsistent results from threads" :=
  c8_consistency_unreachable 2 (by omega)

/-- Claim C9: on every execution of the Memory strategy that returns
normally (allocation succeeded), the event trace is exactly one allocation
with a descriptor of size `total = size * multiplier mod 2^64` and
alignment 8, followed by a write of byte value 0 at every offset
`0, 1, ..., total - 1` in ascending order, followed by one deallocation
with exactly the same descriptor. -/
theorem c9_alloc_trace (m : Memory) (allocOk : Bool) (events : List MemEvent)
    (h : m.execute allocOk = (events, none)) :
    ∃ l : Layout,
      l.size = m.size * m.multiplier % usizeMod ∧ l.align = 8 ∧
      events = MemEvent.alloc l ::
        ((List.range l.size).map fun i => MemEvent.write i 0) ++
          [MemEvent.dealloc l] := by
  simp only [Memory.execute] at h
  split at h
  · split at h
    · exact absurd (congrArg Prod.snd h) (by simp)
    · rename_i layout heq
      split at h
      · refine ⟨layout, ?_, ?_, ?_⟩ <;>
        · unfold layoutFromSizeAlign at heq
          split at heq
          · cases heq
            simp_all [Prod.ext_iff]
          · cases heq
      · exact absurd (congrArg Prod.snd h) (by simp)
  · exact absurd (congrArg Prod.snd h) (by simp)

/-- Witness for C9: executing `Memory { size := 4, multiplier := 1 }` with a
successful allocation yields the alloc/write/dealloc trace for 4 bytes. -/
theorem c9_alloc_trace_witness :
    ∃ l : Layout,
      l.size = (Memory.mk 4 1).size * (Memory.mk 4 1).multiplier % usizeMod ∧
      l.align = 8 ∧
      ([MemEvent.alloc ⟨4, 8⟩, MemEvent.write 0 0, MemEvent.write 1 0,
        MemEvent.write 2 0, MemEvent.write 3 0, MemEvent.dealloc ⟨4, 8⟩] : List MemEvent) =
        MemEvent.alloc l ::
          ((List.range l.size).map fun i => MemEvent.write i 0) ++
            [MemEvent.dealloc l] :=
  c9_alloc_trace (Memory.mk 4 1) true _ (by decide)

/-- Claim C10: the size string "17179869184G" is accepted by the parser
(its digits fit `u64`), the mathematical product `size * multiplier`
exceeds the `u64` range, the wrapped total is the product reduced modulo
`2 ^ 64` — here exactly 0 — and execution hits the zero-size fatal abort
even though both factors are nonzero. -/
theorem c10_overflow_wrap :
    Memory.from_resource
        (.Memory ['1', '7', '1', '7', '9', '8', '6', '9', '1', '8', '4', 'G']) =
      .ok ⟨17179869184, 1073741824⟩ ∧
    17179869184 < 2 ^ 64 ∧
    2 ^ 64 ≤ 17179869184 * 1073741824 ∧
    17179869184 * 1073741824 % usizeMod = 0 ∧
    (17179869184 : Nat) ≠ 0 ∧ (1073741824 : Nat) ≠ 0 ∧
    (Memory.mk 17179869184 1073741824).execute true =
      ([], some "Memory size must be greater than 0") := by
  refine ⟨by decide, by norm_num, by norm_num, ?_, by norm_num, by norm_num, ?_⟩
  · show (2 ^ 34 * 2 ^ 30 : Nat) % usizeMod = 0
    norm_num [usizeMod]
  · simp [Memory.execute, usizeMod]

end Itsmine
